import Mathlib

/-!
Verification of the hwp-mcp document assembly engine against its design
specification.  The Python sources are shallowly embedded: the backend
(the external HWP application reached through COM) is modelled either as
an event trace (for code whose calls' return values are ignored by the
source) or as an oracle record of state-transforming functions.
-/

set_option maxRecDepth 4000

/-! ## Backend command events issued by `HwpController.fill_table_with_data`

The controller's table-fill routine issues raw `hwp.Run` commands and
`InsertText` actions whose return values the source never inspects, so the
embedding records the sequence of issued commands. -/

inductive TEv
  | selCell
  | selTable
  | cancel
  | lowerCell
  | rightCell
  | leftCell
  | del
  | insertCell (s : String)
  | setBold (b : Bool)
  | moveDown
deriving DecidableEq, Repr

namespace HwpController

/-- One cell write: `TableSelCell`, `Delete`, then the text insertion,
wrapped in bold font toggles when the header flag applies to row 0. -/
def cellWrite (has_header : Bool) (rowIdx : Nat) (v : String) : List TEv :=
  [TEv.selCell, TEv.del] ++
    (if has_header ∧ rowIdx = 0 then
      [TEv.setBold true, TEv.insertCell v, TEv.setBold false]
    else
      [TEv.insertCell v])

/-- The inner loop over one data row (`for col_idx, cell_value in enumerate(row_data)`):
write the cell, then `TableRightCell` unless `col_idx < len(row_data) - 1` fails. -/
def fillRowCells (has_header : Bool) (rowIdx rowLen : Nat) : Nat → List String → List TEv
  | _, [] => []
  | j, v :: rest =>
      cellWrite has_header rowIdx v
        ++ (if j < rowLen - 1 then [TEv.rightCell] else [])
        ++ fillRowCells has_header rowIdx rowLen (j + 1) rest

/-- The outer loop over data rows (`for row_idx, row_data in enumerate(data)`):
fill the row, then when `row_idx < len(data) - 1` move left `len(row_data) - 1`
cells and one cell down. -/
def fillRowsLoop (has_header : Bool) (n : Nat) : Nat → List (List String) → List TEv
  | _, [] => []
  | i, row :: rest =>
      fillRowCells has_header i row.length 0 row
        ++ (if i < n - 1 then List.replicate (row.length - 1) TEv.leftCell ++ [TEv.lowerCell] else [])
        ++ fillRowsLoop has_header n (i + 1) rest

/-- `HwpController.fill_table_with_data` (src/src/tools/hwp_controller.py):
anchor to the first cell, advance to the start position, fill all rows,
then exit the table.  The embedding records the issued backend commands. -/
def fill_table_with_data (data : List (List String)) (start_row start_col : Nat)
    (has_header : Bool) : List TEv :=
  [TEv.selCell, TEv.selTable, TEv.cancel, TEv.selCell, TEv.cancel]
    ++ List.replicate (start_row - 1) TEv.lowerCell
    ++ List.replicate (start_col - 1) TEv.rightCell
    ++ fillRowsLoop has_header data.length 0 data
    ++ [TEv.selCell, TEv.cancel, TEv.moveDown]

end HwpController

/-! ## Cursor semantics of the backend over an R×C table

The backend exposes no absolute seek; positions are 1-based.  Selecting the
whole table and cancelling leaves the cursor at the table's first cell, a
`MoveDown` from the last row leaves the table. -/

structure Cur where
  row : Nat
  col : Nat
  inside : Bool
deriving DecidableEq, Repr

def stepT (R C : Nat) (c : Cur) : TEv → Cur
  | TEv.selTable => if c.inside then ⟨1, 1, true⟩ else c
  | TEv.lowerCell => if c.inside ∧ c.row < R then ⟨c.row + 1, c.col, true⟩ else c
  | TEv.rightCell => if c.inside ∧ c.col < C then ⟨c.row, c.col + 1, true⟩ else c
  | TEv.leftCell => if c.inside ∧ 1 < c.col then ⟨c.row, c.col - 1, true⟩ else c
  | TEv.moveDown =>
      if c.inside then (if c.row < R then ⟨c.row + 1, c.col, true⟩ else ⟨c.row, c.col, false⟩) else c
  | _ => c

def runT (R C : Nat) (c : Cur) (evs : List TEv) : Cur := evs.foldl (stepT R C) c

/-- `true` exactly on the `Delete` command that begins each cell write. -/
def isCellDelete : TEv → Bool
  | TEv.del => true
  | _ => false

/-! ## The traversal described by the specification (§4.1 / C1)

Per data row, in order: write each cell and move right one cell after every
cell except the last of the row; between consecutive data rows move left
`(row length - 1)` cells then down one cell; after the last row select the
current cell, cancel, and move down once. -/

def specRowTrace (has_header : Bool) (i : Nat) : List String → List TEv
  | [] => []
  | [v] => HwpController.cellWrite has_header i v
  | v :: w :: rest =>
      HwpController.cellWrite has_header i v ++ [TEv.rightCell]
        ++ specRowTrace has_header i (w :: rest)

def specRowsTrace (has_header : Bool) (i : Nat) : List (List String) → List TEv
  | [] => []
  | [row] => specRowTrace has_header i row
  | row :: next :: rest =>
      specRowTrace has_header i row
        ++ List.replicate (row.length - 1) TEv.leftCell ++ [TEv.lowerCell]
        ++ specRowsTrace has_header (i + 1) (next :: rest)

def specFillTrace (data : List (List String)) (has_header : Bool) : List TEv :=
  [TEv.selCell, TEv.selTable, TEv.cancel, TEv.selCell, TEv.cancel]
    ++ specRowsTrace has_header 0 data
    ++ [TEv.selCell, TEv.cancel, TEv.moveDown]

/-! ## C1 proofs -/

theorem runT_append (R C : Nat) (c : Cur) (l1 l2 : List TEv) :
    runT R C c (l1 ++ l2) = runT R C (runT R C c l1) l2 :=
  List.foldl_append _ _ _ _

theorem runT_cellWrite (R C : Nat) (c : Cur) (h : Bool) (i : Nat) (v : String) :
    runT R C c (HwpController.cellWrite h i v) = c := by
  unfold HwpController.cellWrite
  split <;> rfl

theorem fillRowCells_eq_spec (h : Bool) (i len : Nat) :
    ∀ (row : List String) (j : Nat), j + row.length = len →
      HwpController.fillRowCells h i len j row = specRowTrace h i row := by
  intro row
  induction row with
  | nil => intro j _; rfl
  | cons v tail ih =>
    intro j hj
    cases tail with
    | nil =>
      simp only [List.length_cons, List.length_nil] at hj
      have hlt : ¬ j < len - 1 := by omega
      simp [HwpController.fillRowCells, specRowTrace, hlt]
    | cons w rest =>
      have hlt : j < len - 1 := by
        simp only [List.length_cons] at hj; omega
      have ht := ih (j + 1) (by simp only [List.length_cons] at hj ⊢; omega)
      show HwpController.cellWrite h i v ++ (if j < len - 1 then [TEv.rightCell] else [])
          ++ HwpController.fillRowCells h i len (j + 1) (w :: rest) = _
      rw [if_pos hlt, ht]
      rfl

theorem fillRowsLoop_eq_spec (h : Bool) (n : Nat) :
    ∀ (rows : List (List String)) (i : Nat), i + rows.length = n →
      HwpController.fillRowsLoop h n i rows = specRowsTrace h i rows := by
  intro rows
  induction rows with
  | nil => intro i _; rfl
  | cons row tail ih =>
    intro i hi
    cases tail with
    | nil =>
      have hlt : ¬ i < n - 1 := by simp [List.length] at hi; omega
      simp [HwpController.fillRowsLoop, specRowsTrace, hlt,
        fillRowCells_eq_spec h i row.length row 0 (by omega)]
    | cons next rest =>
      have hlt : i < n - 1 := by simp [List.length] at hi; omega
      have ht := ih (i + 1) (by simp only [List.length_cons] at hi ⊢; omega)
      show HwpController.fillRowCells h i row.length 0 row
          ++ (if i < n - 1 then List.replicate (row.length - 1) TEv.leftCell ++ [TEv.lowerCell] else [])
          ++ HwpController.fillRowsLoop h n (i + 1) (next :: rest) = _
      rw [if_pos hlt, ht, fillRowCells_eq_spec h i row.length row 0 (by omega)]
      show _ = specRowTrace h i row ++ List.replicate (row.length - 1) TEv.leftCell
          ++ [TEv.lowerCell] ++ specRowsTrace h (i + 1) (next :: rest)
      simp [List.append_assoc]

theorem fill_trace_eq_spec (data : List (List String)) (hdr : Bool) :
    HwpController.fill_table_with_data data 1 1 hdr = specFillTrace data hdr := by
  unfold HwpController.fill_table_with_data specFillTrace
  simp [fillRowsLoop_eq_spec hdr data.length data 0 (by omega)]

theorem countP_cellWrite (h : Bool) (i : Nat) (v : String) :
    (HwpController.cellWrite h i v).countP isCellDelete = 1 := by
  unfold HwpController.cellWrite
  split <;> rfl

theorem countP_specRowTrace (h : Bool) (i : Nat) :
    ∀ row : List String, (specRowTrace h i row).countP isCellDelete = row.length := by
  intro row
  induction row with
  | nil => rfl
  | cons v tail ih =>
    cases tail with
    | nil => simpa [specRowTrace] using countP_cellWrite h i v
    | cons w rest =>
      simp [specRowTrace, List.countP_append, countP_cellWrite, isCellDelete] at ih ⊢
      omega

theorem countP_specRowsTrace (h : Bool) :
    ∀ (rows : List (List String)) (i : Nat),
      (specRowsTrace h i rows).countP isCellDelete = (rows.map List.length).sum := by
  intro rows
  induction rows with
  | nil => intro i; rfl
  | cons row tail ih =>
    intro i
    cases tail with
    | nil => simp [specRowsTrace, countP_specRowTrace]
    | cons next rest =>
      simp [specRowsTrace, List.countP_append, countP_specRowTrace, isCellDelete, ih (i + 1)]

theorem runT_specRowTrace (R C : Nat) (h : Bool) (i : Nat) :
    ∀ (row : List String) (r c : Nat), row ≠ [] → c + row.length - 1 ≤ C →
      runT R C ⟨r, c, true⟩ (specRowTrace h i row) = ⟨r, c + row.length - 1, true⟩ := by
  intro row
  induction row with
  | nil => intro r c hne _; exact absurd rfl hne
  | cons v tail ih =>
    intro r c _ hle
    cases tail with
    | nil => simp [specRowTrace, runT_cellWrite]
    | cons w rest =>
      have hc : c < C := by simp [List.length] at hle; omega
      have hstep : stepT R C ⟨r, c, true⟩ TEv.rightCell = ⟨r, c + 1, true⟩ := by
        simp [stepT, hc]
      have htail := ih r (c + 1) (by simp) (by simp [List.length] at hle ⊢; omega)
      have h1 : runT R C ⟨r, c, true⟩ (specRowTrace h i (v :: w :: rest))
          = runT R C ⟨r, c + 1, true⟩ (specRowTrace h i (w :: rest)) := by
        show runT R C ⟨r, c, true⟩ (HwpController.cellWrite h i v ++ [TEv.rightCell]
            ++ specRowTrace h i (w :: rest)) = _
        rw [runT_append, runT_append, runT_cellWrite]
        show runT R C (stepT R C ⟨r, c, true⟩ TEv.rightCell) (specRowTrace h i (w :: rest)) = _
        rw [hstep]
      have hcol : c + 1 + (w :: rest).length - 1 = c + (v :: w :: rest).length - 1 := by
        simp only [List.length_cons]; omega
      rw [h1, htail, hcol]

theorem runT_lefts (R C : Nat) (r : Nat) :
    ∀ (k c : Nat), c = k + 1 →
      runT R C ⟨r, c, true⟩ (List.replicate k TEv.leftCell) = ⟨r, 1, true⟩ := by
  intro k
  induction k with
  | zero => intro c hc; subst hc; rfl
  | succ m ih =>
    intro c hc
    have hstep : stepT R C ⟨r, c, true⟩ TEv.leftCell = ⟨r, c - 1, true⟩ := by
      simp [stepT]; omega
    have := ih (c - 1) (by omega)
    simp only [List.replicate_succ, runT, List.foldl_cons, hstep] at this ⊢
    exact this

theorem runT_specRowsTrace (R C : Nat) (h : Bool) (hC : 0 < C) :
    ∀ (rows : List (List String)) (i : Nat), rows ≠ [] → i + rows.length = R →
      (∀ row ∈ rows, row.length = C) →
      runT R C ⟨i + 1, 1, true⟩ (specRowsTrace h i rows) = ⟨R, C, true⟩ := by
  intro rows
  induction rows with
  | nil => intro i hne _ _; exact absurd rfl hne
  | cons row tail ih =>
    intro i _ hlen hall
    have hrow : row.length = C := hall row (by simp)
    have hrowne : row ≠ [] := by
      intro hcon; rw [hcon] at hrow; simp at hrow; omega
    cases tail with
    | nil =>
      have hiR : i + 1 = R := by simpa using hlen
      have := runT_specRowTrace R C h i row (i + 1) 1 hrowne (by omega)
      simp only [specRowsTrace]
      rw [this, hrow, hiR]
      congr 1
      omega
    | cons next rest =>
      have hiR : i + 1 < R := by simp [List.length] at hlen; omega
      have h1 := runT_specRowTrace R C h i row (i + 1) 1 hrowne (by omega)
      have h2 : runT R C ⟨i + 1, 1 + row.length - 1, true⟩
          (List.replicate (row.length - 1) TEv.leftCell) = ⟨i + 1, 1, true⟩ := by
        apply runT_lefts
        omega
      have hstep : stepT R C ⟨i + 1, 1, true⟩ TEv.lowerCell = ⟨i + 2, 1, true⟩ := by
        simp [stepT, hiR]
      have htail := ih (i + 1) (by simp) (by simp [List.length] at hlen ⊢; omega)
        (fun r hr => hall r (by simp [hr]))
      simp only [specRowsTrace]
      rw [runT_append, runT_append, runT_append, h1, h2]
      show runT R C (runT R C ⟨i + 1, 1, true⟩ [TEv.lowerCell]) (specRowsTrace h (i + 1) (next :: rest)) = _
      rw [show runT R C ⟨i + 1, 1, true⟩ [TEv.lowerCell] = ⟨i + 1 + 1, 1, true⟩ by
        simp [runT, hstep]]
      exact htail

/-- C1: for rectangular R×C data starting at row 1, column 1,
`fill_table_with_data` issues exactly the row-major traversal described by
the specification — R*C select-delete-insert cell writes, a right move after
every cell except the last of a row, `(row length - 1)` left moves and one
down move between consecutive rows, and a final down move that leaves the
cursor outside the table. -/
theorem fill_table_row_major (data : List (List String)) (R C : Nat) (hdr : Bool)
    (hR : data.length = R) (hR1 : 0 < R) (hC1 : 0 < C)
    (hrect : ∀ row ∈ data, row.length = C) (c0 : Cur) (h0 : c0.inside = true) :
    HwpController.fill_table_with_data data 1 1 hdr = specFillTrace data hdr
    ∧ (HwpController.fill_table_with_data data 1 1 hdr).countP isCellDelete = R * C
    ∧ runT R C c0 (HwpController.fill_table_with_data data 1 1 hdr) = ⟨R, C, false⟩ := by
  have htrace := fill_trace_eq_spec data hdr
  refine ⟨htrace, ?_, ?_⟩
  · rw [htrace]
    unfold specFillTrace
    have hmap : data.map List.length = List.replicate R C := by
      rw [List.eq_replicate_iff]
      refine ⟨by simp [hR], ?_⟩
      intro b hb
      obtain ⟨row, hrow, hbl⟩ := List.mem_map.mp hb
      rw [← hbl]
      exact hrect row hrow
    rw [List.countP_append, List.countP_append, countP_specRowsTrace, hmap,
      List.sum_replicate, smul_eq_mul]
    rw [show List.countP isCellDelete [TEv.selCell, TEv.selTable, TEv.cancel, TEv.selCell, TEv.cancel] = 0 from rfl,
      show List.countP isCellDelete [TEv.selCell, TEv.cancel, TEv.moveDown] = 0 from rfl]
    simp
  · rw [htrace]
    have hne : data ≠ [] := by intro hc; rw [hc] at hR; simp at hR; omega
    have hanchor : runT R C c0 [TEv.selCell, TEv.selTable, TEv.cancel, TEv.selCell, TEv.cancel]
        = ⟨1, 1, true⟩ := by
      obtain ⟨r0, col0, ins0⟩ := c0
      simp at h0
      subst h0
      rfl
    have hrows := runT_specRowsTrace R C hdr hC1 data 0 hne (by simpa using hR) hrect
    unfold specFillTrace
    rw [runT_append, runT_append, hanchor]
    rw [show (0 : Nat) + 1 = 1 from rfl] at hrows
    rw [hrows]
    have hmd : stepT R C ⟨R, C, true⟩ TEv.moveDown = ⟨R, C, false⟩ := by
      simp [stepT]
    exact hmd

/-- Witness for C1 at the concrete 2×2 table `[["a","b"],["c","d"]]`. -/
theorem fill_table_row_major_witness :
    HwpController.fill_table_with_data [["a", "b"], ["c", "d"]] 1 1 false
      = specFillTrace [["a", "b"], ["c", "d"]] false
    ∧ (HwpController.fill_table_with_data [["a", "b"], ["c", "d"]] 1 1 false).countP isCellDelete = 2 * 2
    ∧ runT 2 2 ⟨1, 1, true⟩ (HwpController.fill_table_with_data [["a", "b"], ["c", "d"]] 1 1 false)
        = ⟨2, 2, false⟩ :=
  fill_table_row_major [["a", "b"], ["c", "d"]] 2 2 false rfl (by decide) (by decide)
    (by decide) ⟨1, 1, true⟩ rfl

/-! ## Controller-call events

`hwp_create_document_from_text` and the document-spec interpreter in
src/hwp_mcp_stdio_server.py drive the `HwpController` instance and ignore
the boolean results of every formatting call, so these paths are embedded
as the sequence of controller calls they issue.  `set_font(None, size,
bold, italic)` delegates to `set_font_style` with `underline=False` and
`select_previous_text=False`. -/

inductive DEv
  | createNewDocument
  | openDocument (path : String)
  | saveDocument (path : Option String)
  | insertText (s : String)
  | insertParagraph
  | setFontStyle (name : Option String) (size : Option Int)
      (bold italic underline selPrev : Bool)
  | insertTable (rows cols : Int)
  | fillTable (data : List (List String)) (startRow startCol : Int) (hasHeader : Bool)
  | getText
  | disconnect
deriving DecidableEq, Repr

def setFontEv (size : Int) (bold italic : Bool) : DEv :=
  DEv.setFontStyle none (some size) bold italic false false

/-- Python whitespace for `str.strip()`. -/
def pyIsSpace (c : Char) : Bool :=
  c = ' ' ∨ c = '\t' ∨ c = '\n' ∨ c = '\r' ∨ c = '\x0b' ∨ c = '\x0c'

/-- Python `str.strip()` with no argument (surrounding whitespace removed). -/
def pyStrip (s : String) : String :=
  String.mk (((s.toList.dropWhile pyIsSpace).reverse.dropWhile pyIsSpace).reverse)

/-- Python `s[n:]` (slicing counts code points). -/
def pyDrop (s : String) (n : Nat) : String := String.mk (s.toList.drop n)

/-- Python `s.startswith(c)` for a single-character prefix. -/
def pyStartsWithChar (s : String) (c : Char) : Bool :=
  match s.toList with
  | [] => false
  | d :: _ => d = c

/-- Python `s.split(sep)` for a single-character separator (keeps empty
pieces, `"".split(sep) == [""]`). -/
def splitListOn (sep : Char) : List Char → List (List Char)
  | [] => [[]]
  | c :: rest =>
      let r := splitListOn sep rest
      if c = sep then [] :: r
      else
        match r with
        | [] => [[c]]
        | h :: t => (c :: h) :: t

def pySplit (s : String) (sep : Char) : List String :=
  (splitListOn sep s.toList).map String.mk

/-- Python `sep.join(parts)` for `sep = "\n"`. -/
def pyJoinLines (parts : List String) : String :=
  String.mk (List.intercalate ['\n'] (parts.map String.toList))

/-- Python `needle in hay` on strings (substring containment). -/
def subList (needle : List Char) : List Char → Bool
  | [] => needle.isEmpty
  | c :: t => needle.isPrefixOf (c :: t) || subList needle t

def pyInStr (needle hay : String) : Bool := subList needle.toList hay.toList

/-! ## `hwp_create_document_from_text` (src/hwp_mcp_stdio_server.py) -/

/-- One step of the blank-line block grouping: non-blank lines extend the
current block, a blank line closes it. -/
def blocksStep (acc : List (List String) × List String) (line : String) :
    List (List String) × List String :=
  if pyStrip line ≠ "" then (acc.1, acc.2 ++ [line])
  else if acc.2 ≠ [] then (acc.1 ++ [acc.2], []) else (acc.1, [])

/-- Group input lines into blocks separated by blank lines. -/
def mkBlocks (lines : List String) : List (List String) :=
  let acc := lines.foldl blocksStep ([], [])
  if acc.2 ≠ [] then acc.1 ++ [acc.2] else acc.1

/-- Python falsiness of the optional `title` argument (`not title`). -/
def titleFalsy : Option String → Bool
  | none => true
  | some s => s = ""

/-- Without an explicit title, the first line of the first block becomes the
title and is removed from that block (the block is dropped if it becomes
empty). -/
def extractTitle (title : Option String) (blocks : List (List String)) :
    Option String × List (List String) :=
  match blocks with
  | [] => (title, [])
  | [] :: rest => (title, [] :: rest)
  | (t :: brest) :: rest =>
      if titleFalsy title then
        (if brest ≠ [] then (some t, brest :: rest) else (some t, rest))
      else (title, (t :: brest) :: rest)

/-- The title, when truthy, is inserted at size 16, bold, followed by two
paragraph breaks. -/
def titleEvents (title : Option String) : List DEv :=
  match title with
  | some t =>
      if t ≠ "" then
        [setFontEv 16 true false, DEv.insertText t, DEv.insertParagraph, DEv.insertParagraph]
      else []
  | none => []

/-- Count of leading `#` characters (`for char in first_line: ... break`). -/
def leadingHashes (s : String) : Nat := (s.toList.takeWhile (fun c => c = '#')).length

def isBulletMarker (c : Char) : Bool := c = '-' ∨ c = '*' ∨ c = '•'

/-- Python `s.startswith(('-', '*', '•'))`. -/
def startsWithBullet (s : String) : Bool :=
  match s.toList with
  | [] => false
  | c :: _ => isBulletMarker c

/-- The per-block branch of the `format_content` path: heading blocks,
bullet blocks, linebreak-preserving blocks, plain paragraphs; every block
is followed by one extra paragraph break. -/
def processBlock (preserve_linebreaks : Bool) (block : List String) : List DEv :=
  let first_line := match block with | [] => "" | l :: _ => pyStrip l
  (if pyStartsWithChar first_line '#' then
    let level := leadingHashes first_line
    let heading_text := pyStrip (pyDrop first_line level)
    let font_size : Int := max 11 (16 - ((level : Int) - 1))
    [setFontEv font_size true false, DEv.insertText heading_text, DEv.insertParagraph]
      ++ (if block.length > 1 then
            setFontEv 11 false false ::
              (block.drop 1).flatMap (fun l => [DEv.insertText l, DEv.insertParagraph])
          else [])
  else if startsWithBullet first_line then
    setFontEv 11 false false ::
      block.flatMap (fun line =>
        let ls := pyStrip line
        (if startsWithBullet ls then
          [DEv.insertText ("• " ++ pyStrip (pyDrop ls 1))]
        else
          [DEv.insertText ls]) ++ [DEv.insertParagraph])
  else if preserve_linebreaks then
    setFontEv 11 false false :: block.flatMap (fun l => [DEv.insertText l, DEv.insertParagraph])
  else
    [setFontEv 11 false false, DEv.insertText (pyJoinLines block), DEv.insertParagraph])
  ++ [DEv.insertParagraph]

/-- The document body: with `format_content` the blocks are classified one
by one; without it every original input line is inserted verbatim followed
by a paragraph break (blank lines contribute only the break). -/
def bodyEvents (format_content preserve_linebreaks : Bool)
    (lines : List String) (blocks : List (List String)) : List DEv :=
  if format_content then blocks.flatMap (processBlock preserve_linebreaks)
  else
    setFontEv 11 false false ::
      lines.flatMap (fun line =>
        (if pyStrip line ≠ "" then [DEv.insertText line] else []) ++ [DEv.insertParagraph])

structure DocResult where
  status : String
  message : String
  saved_path : Option String := none
deriving DecidableEq, Repr

/-- `hwp_create_document_from_text`: the sequence of controller calls and
the result dict.  `create_ok` and `save_ok` stand for the outcomes of the
two controller calls whose results the source does inspect. -/
def hwp_create_document_from_text (content : String) (title : Option String)
    (format_content : Bool) (save_filename : Option String)
    (preserve_linebreaks : Bool) (create_ok save_ok : Bool) :
    List DEv × DocResult :=
  if ¬ create_ok then
    ([DEv.createNewDocument], ⟨"error", "Failed to create new document", none⟩)
  else if content = "" then
    ([DEv.createNewDocument], ⟨"error", "Document content is required", none⟩)
  else
    let lines := pySplit content '\n' 
    let blocks := mkBlocks lines
    let tb := extractTitle title blocks
    let evs := DEv.createNewDocument :: titleEvents tb.1
      ++ bodyEvents format_content preserve_linebreaks lines tb.2
    match save_filename with
    | some f =>
        if f = "" then (evs, ⟨"success", "Document created from text successfully", none⟩)
        else if save_ok then
          (evs ++ [DEv.saveDocument (some f)],
            ⟨"success", "Document created from text successfully", some f⟩)
        else
          (evs ++ [DEv.saveDocument (some f)],
            ⟨"partial_success", "Document created but failed to save", none⟩)
    | none => (evs, ⟨"success", "Document created from text successfully", none⟩)

/-! ## `hwp_create_complete_document` generic element path
(src/hwp_mcp_stdio_server.py, lines 536-577) -/

structure ElemProps where
  font_size : Option Int := none
  bold : Option Bool := none
  italic : Option Bool := none
  rows : Option Int := none
  cols : Option Int := none
  data : Option (List (List String)) := none
deriving DecidableEq, Repr

structure Element where
  etype : String
  content : String := ""
  properties : ElemProps := {}
deriving DecidableEq, Repr

/-- One element of the generic path.  The `table` branch creates the table
when `rows > 0 and cols > 0`; the source reads `properties.data` into a
local variable and then — per its own comment — does not process it. -/
def processElement (e : Element) : List DEv :=
  if e.etype = "heading" then
    [setFontEv (e.properties.font_size.getD 16) (e.properties.bold.getD true) false,
      DEv.insertText e.content, DEv.insertParagraph]
  else if e.etype = "text" then
    [setFontEv (e.properties.font_size.getD 10) (e.properties.bold.getD false)
        (e.properties.italic.getD false),
      DEv.insertText e.content]
  else if e.etype = "paragraph" then [DEv.insertParagraph]
  else if e.etype = "table" then
    if e.properties.rows.getD 0 > 0 ∧ e.properties.cols.getD 0 > 0 then
      [DEv.insertTable (e.properties.rows.getD 0) (e.properties.cols.getD 0)]
    else []
  else []

def processElements (es : List Element) : List DEv := es.flatMap processElement

/-! ## C2: table elements in the generic document-spec path -/

/-- C2 counterexample: a `table` element with `properties.data` present
produces only the table-creation call; none of the data cells is ever
written (the source reads `data` and then, per its own comment, does not
process it). -/
theorem spec_table_element_not_filled :
    processElement ⟨"table", "", ⟨none, none, none, some 2, some 2, some [["a", "b"], ["c", "d"]]⟩⟩
      = [DEv.insertTable 2 2]
    ∧ (processElement ⟨"table", "", ⟨none, none, none, some 2, some 2, some [["a", "b"], ["c", "d"]]⟩⟩).all
        (fun ev => match ev with
          | DEv.insertText _ => false
          | DEv.fillTable _ _ _ _ => false
          | _ => true) = true := by
  constructor <;> rfl

/-- C2 amended: the generic element path creates the table whenever
`rows > 0` and `cols > 0` but ignores `properties.data` entirely — the
emitted calls are the same whatever `data` holds, and no fill happens. -/
theorem spec_table_element_creates_only (props : ElemProps) (content : String)
    (hr : props.rows.getD 0 > 0) (hc : props.cols.getD 0 > 0) :
    processElement ⟨"table", content, props⟩
      = [DEv.insertTable (props.rows.getD 0) (props.cols.getD 0)] := by
  simp [processElement, hr, hc]

/-- Witness for the amended C2 at a concrete table element. -/
theorem spec_table_element_creates_only_witness :
    (((⟨none, none, none, some 3, some 2, some [["x"]]⟩ : ElemProps).rows.getD 0 > 0)
      ∧ ((⟨none, none, none, some 3, some 2, some [["x"]]⟩ : ElemProps).cols.getD 0 > 0))
    ∧ processElement ⟨"table", "", ⟨none, none, none, some 3, some 2, some [["x"]]⟩⟩
      = [DEv.insertTable 3 2] :=
  ⟨⟨by decide, by decide⟩,
    spec_table_element_creates_only ⟨none, none, none, some 3, some 2, some [["x"]]⟩ ""
      (by decide) (by decide)⟩

/-! ## C4: which flag disables segmentation -/

/-- C4 counterexample: with `preserve_linebreaks = False` (and the default
`format_content = True`) the heading heuristic is still applied — the line
`"# H"` is not inserted verbatim; its trimmed remainder `"H"` is inserted
instead. -/
theorem preserve_linebreaks_disabled_still_formats :
    ((hwp_create_document_from_text "T\n\n# H" none true none false true true).1).contains
        (DEv.insertText "# H") = false
    ∧ ((hwp_create_document_from_text "T\n\n# H" none true none false true true).1).contains
        (DEv.insertText "H") = true := by
  constructor <;> rfl

/-- C4 amended: the parameter that skips segmentation and classification
entirely is `format_content`, not `preserve_linebreaks`.  With
`format_content = False` every input line becomes its own paragraph
verbatim (blank lines still produce an empty paragraph break) and no
heading or bullet heuristic is applied, for either value of
`preserve_linebreaks`. -/
theorem format_content_disabled_verbatim (content : String) (title : Option String)
    (preserve_linebreaks save_ok : Bool) (save_filename : Option String)
    (hc : content ≠ "") :
    (hwp_create_document_from_text content title false save_filename
        preserve_linebreaks true save_ok).1
      = (DEv.createNewDocument ::
          titleEvents (extractTitle title (mkBlocks (pySplit content '\n'))).1)
        ++ (setFontEv 11 false false ::
            (pySplit content '\n').flatMap (fun line =>
              (if pyStrip line ≠ "" then [DEv.insertText line] else [])
                ++ [DEv.insertParagraph]))
        ++ (match save_filename with
            | some f => if f = "" then [] else [DEv.saveDocument (some f)]
            | none => []) := by
  unfold hwp_create_document_from_text bodyEvents
  cases save_filename with
  | none => simp [hc]
  | some f =>
    by_cases hf : f = "" <;> cases save_ok <;> simp [hc, hf]

/-- Witness for the amended C4. -/
theorem format_content_disabled_verbatim_witness :
    ("a\n\nb" ≠ "")
    ∧ (hwp_create_document_from_text "a\n\nb" (some "T") false none true true true).1
      = [DEv.createNewDocument, setFontEv 16 true false, DEv.insertText "T",
         DEv.insertParagraph, DEv.insertParagraph,
         setFontEv 11 false false,
         DEv.insertText "a", DEv.insertParagraph,
         DEv.insertParagraph,
         DEv.insertText "b", DEv.insertParagraph] :=
  ⟨by decide,
    (format_content_disabled_verbatim "a\n\nb" (some "T") true true none (by decide)).trans
      (by decide)⟩

/-! ## C6: heading blocks -/

/-- C6: a block whose (stripped) first line starts with `#` is emitted as a
bold heading of level = count of leading `#`, text = the remainder after
the `#` run, trimmed, at font size `max(11, 16 - (level - 1))`, followed by
every remaining line of the block as non-bold size-11 body text, each as
its own paragraph. -/
theorem heading_block_format (preserve_linebreaks : Bool) (first : String)
    (rest : List String) (h : pyStartsWithChar (pyStrip first) '#' = true) :
    processBlock preserve_linebreaks (first :: rest)
      = [setFontEv (max 11 (16 - ((leadingHashes (pyStrip first) : Int) - 1))) true false,
          DEv.insertText (pyStrip (pyDrop (pyStrip first) (leadingHashes (pyStrip first)))),
          DEv.insertParagraph]
        ++ (if rest = [] then [] else
              setFontEv 11 false false ::
                rest.flatMap (fun l => [DEv.insertText l, DEv.insertParagraph]))
        ++ [DEv.insertParagraph] := by
  cases rest with
  | nil => simp [processBlock, h]
  | cons a as => simp [processBlock, h]

/-- Witness for C6: the specification's own example `"# Title\nBody"` gives
a level-1 heading at size 16 and a body paragraph at size 11. -/
theorem heading_block_format_witness :
    pyStartsWithChar (pyStrip "# Title") '#' = true
    ∧ processBlock true ["# Title", "Body"]
      = [setFontEv 16 true false, DEv.insertText "Title", DEv.insertParagraph,
         setFontEv 11 false false, DEv.insertText "Body", DEv.insertParagraph,
         DEv.insertParagraph] :=
  ⟨by decide, (heading_block_format true "# Title" ["Body"] (by decide)).trans (by decide)⟩

/-! ## C7: bullet blocks -/

/-- C7 counterexample: inside a bullet block a line that does not start
with a bullet marker is NOT emitted verbatim — it is stripped of its
surrounding whitespace first. -/
theorem bullet_block_nonverbatim :
    (processBlock true ["- a", "  b  "]).contains (DEv.insertText "  b  ") = false
    ∧ (processBlock true ["- a", "  b  "]).contains (DEv.insertText "b") = true := by
  constructor <;> rfl

/-- C7 amended: in a block whose stripped first line starts with `-`, `*`,
or `•`, every line is emitted as its own size-11 paragraph; a line whose
stripped form starts with a marker has the marker dropped and is
re-prefixed with `• `; other lines are emitted stripped of surrounding
whitespace (not verbatim). -/
theorem bullet_block_format (preserve_linebreaks : Bool) (first : String)
    (rest : List String) (hno : pyStartsWithChar (pyStrip first) '#' = false)
    (hb : startsWithBullet (pyStrip first) = true) :
    processBlock preserve_linebreaks (first :: rest)
      = (setFontEv 11 false false ::
          (first :: rest).flatMap (fun line =>
            (if startsWithBullet (pyStrip line) then
              [DEv.insertText ("• " ++ pyStrip (pyDrop (pyStrip line) 1))]
            else
              [DEv.insertText (pyStrip line)]) ++ [DEv.insertParagraph]))
        ++ [DEv.insertParagraph] := by
  simp [processBlock, hno, hb]

/-- Witness for the amended C7: the specification's example
`"- a\n* b\n• c"` yields the three paragraphs `• a`, `• b`, `• c`. -/
theorem bullet_block_format_witness :
    (pyStartsWithChar (pyStrip "- a") '#' = false ∧ startsWithBullet (pyStrip "- a") = true)
    ∧ processBlock true ["- a", "* b", "• c"]
      = [setFontEv 11 false false,
         DEv.insertText "• a", DEv.insertParagraph,
         DEv.insertText "• b", DEv.insertParagraph,
         DEv.insertText "• c", DEv.insertParagraph,
         DEv.insertParagraph] :=
  ⟨⟨by decide, by decide⟩,
    (bullet_block_format true "- a" ["* b", "• c"] (by decide) (by decide)).trans (by decide)⟩

/-! ## Dynamically-typed values

The MCP tools receive loosely-typed parameters; `Value` models the Python
values that can appear (JSON-compatible scalars plus lists and dicts).
Python type errors raised by operations on ill-typed values are modelled
as `PyErr`. -/

inductive Value
  | vnone
  | vbool (b : Bool)
  | vint (n : Int)
  | vstr (s : String)
  | vlist (xs : List Value)
  | vdict (entries : List (String × Value))
deriving Repr

mutual

def Value.beq : Value → Value → Bool
  | .vnone, .vnone => true
  | .vbool a, .vbool b => a == b
  | .vint a, .vint b => a == b
  | .vstr a, .vstr b => a == b
  | .vlist a, .vlist b => Value.beqList a b
  | .vdict a, .vdict b => Value.beqEntries a b
  | _, _ => false

def Value.beqList : List Value → List Value → Bool
  | [], [] => true
  | a :: as, b :: bs => Value.beq a b && Value.beqList as bs
  | _, _ => false

def Value.beqEntries : List (String × Value) → List (String × Value) → Bool
  | [], [] => true
  | (k1, v1) :: as, (k2, v2) :: bs => k1 == k2 && Value.beq v1 v2 && Value.beqEntries as bs
  | _, _ => false

end

instance : BEq Value := ⟨Value.beq⟩

inductive PyErr
  | typeError (msg : String)
  | attributeError (msg : String)
  | jsonDecodeError (msg : String)
  | valueError (msg : String)
deriving DecidableEq, Repr

def PyErr.msg : PyErr → String
  | typeError m => m
  | attributeError m => m
  | jsonDecodeError m => m
  | valueError m => m

/-- Python truthiness. -/
def Value.truthy : Value → Bool
  | vnone => false
  | vbool b => b
  | vint n => n ≠ 0
  | vstr s => s ≠ ""
  | vlist xs => ¬ xs.isEmpty
  | vdict es => ¬ es.isEmpty

/-- Python `type(v)` rendered as in error messages. -/
def Value.typeNameBare : Value → String
  | vnone => "NoneType"
  | vbool _ => "bool"
  | vint _ => "int"
  | vstr _ => "str"
  | vlist _ => "list"
  | vdict _ => "dict"

def Value.typeName (v : Value) : String :=
  "<class \x27" ++ v.typeNameBare ++ "\x27>"

mutual

/-- Python `repr` of a value (used by `str` inside containers). -/
def pyRepr : Value → String
  | .vnone => "None"
  | .vbool b => if b then "True" else "False"
  | .vint n => toString n
  | .vstr s => "\x27" ++ s ++ "\x27"
  | .vlist xs => "[" ++ pyReprElems xs ++ "]"
  | .vdict es => "\x7b" ++ pyReprEntries es ++ "\x7d"

def pyReprElems : List Value → String
  | [] => ""
  | [x] => pyRepr x
  | x :: y :: rest => pyRepr x ++ ", " ++ pyReprElems (y :: rest)

def pyReprEntries : List (String × Value) → String
  | [] => ""
  | [(k, v)] => "\x27" ++ k ++ "\x27: " ++ pyRepr v
  | (k, v) :: e :: rest => "\x27" ++ k ++ "\x27: " ++ pyRepr v ++ ", " ++ pyReprEntries (e :: rest)

end

/-- Python `str(v)`. -/
def Value.pyStr : Value → String
  | .vstr s => s
  | v => pyRepr v

mutual

/-- Python `json.dumps` with default separators (string escaping of inner
quotes is not modelled; no theorem depends on it). -/
def jsonDumps : Value → String
  | .vnone => "null"
  | .vbool b => if b then "true" else "false"
  | .vint n => toString n
  | .vstr s => "\"" ++ s ++ "\""
  | .vlist xs => "[" ++ jsonDumpsElems xs ++ "]"
  | .vdict es => "\x7b" ++ jsonDumpsEntries es ++ "\x7d"

def jsonDumpsElems : List Value → String
  | [] => ""
  | [x] => jsonDumps x
  | x :: y :: rest => jsonDumps x ++ ", " ++ jsonDumpsElems (y :: rest)

def jsonDumpsEntries : List (String × Value) → String
  | [] => ""
  | [(k, v)] => "\"" ++ k ++ "\": " ++ jsonDumps v
  | (k, v) :: e :: rest => "\"" ++ k ++ "\": " ++ jsonDumps v ++ ", " ++ jsonDumpsEntries (e :: rest)

end

def Value.asOptStr : Value → Option String
  | .vstr s => some s
  | _ => none

def Value.asOptInt : Value → Option Int
  | .vint n => some n
  | _ => none

/-- The integer behind a value that already passed an integer comparison. -/
def Value.asInt : Value → Int
  | .vint n => n
  | .vbool b => if b then 1 else 0
  | _ => 0

def Value.isList : Value → Bool
  | .vlist _ => true
  | _ => false

def Value.isDict : Value → Bool
  | .vdict _ => true
  | _ => false

/-- Python `a <= b` for the integer comparisons in the dispatcher; raises
`TypeError` on non-numeric operands (bools compare as 0/1). -/
def pyLE (a b : Value) : Except PyErr Bool :=
  match a, b with
  | .vint x, .vint y => .ok (decide (x ≤ y))
  | .vbool x, .vint y => .ok (decide ((if x then (1 : Int) else 0) ≤ y))
  | .vint x, .vbool y => .ok (decide (x ≤ (if y then (1 : Int) else 0)))
  | .vbool x, .vbool y => .ok (decide ((if x then (1 : Int) else 0) ≤ (if y then 1 else 0)))
  | _, _ =>
      .error (.typeError ("\x27<=\x27 not supported between instances of \x27"
        ++ a.typeNameBare ++ "\x27 and \x27" ++ b.typeNameBare ++ "\x27"))

/-- Python `needle in v` for a string needle; raises `TypeError` when `v`
is not iterable. -/
def pyContains (needle : String) : Value → Except PyErr Bool
  | .vstr s => .ok (pyInStr needle s)
  | .vlist xs => .ok (xs.contains (.vstr needle))
  | .vdict es => .ok (es.any (fun e => e.1 = needle))
  | v => .error (.typeError ("argument of type \x27" ++ v.typeNameBare ++ "\x27 is not iterable"))

/-- Python `range(count)` bound; raises `TypeError` on non-integers. -/
def pyRangeCount : Value → Except PyErr Nat
  | .vint n => .ok n.toNat
  | .vbool b => .ok (if b then 1 else 0)
  | v => .error (.typeError ("\x27" ++ v.typeNameBare
      ++ "\x27 object cannot be interpreted as an integer"))

/-- Python `s.startswith(pre)` for a multi-character prefix. -/
def pyStartsWith (s pre : String) : Bool := pre.toList.isPrefixOf s.toList

/-- Python `text.replace("\\n", "\n")`: left-to-right, non-overlapping. -/
def replaceEscNewline : List Char → List Char
  | [] => []
  | '\\' :: 'n' :: rest => '\n' :: replaceEscNewline rest
  | c :: rest => c :: replaceEscNewline rest

def pyReplaceEscNL (s : String) : String := String.mk (replaceEscNewline s.toList)

/-! ## The `HwpController` interface as a backend oracle

Every `HwpController` method wraps its COM calls in a `try/except` that
returns a boolean (or a string for `get_text`), so from the callers' side
the controller is a record of state-transforming functions that never
raise.  `set_font_style` receives its arguments unchecked, hence `Value`
parameters. -/

structure Hwp (σ : Type) where
  create_new_document : σ → Bool × σ
  open_document : String → σ → Bool × σ
  save_document : Option String → σ → Bool × σ
  insert_text : String → σ → Bool × σ
  insert_paragraph : σ → Bool × σ
  set_font_style : Value → Value → Value → Value → Value → Value → σ → Bool × σ
  insert_table : Int → Int → σ → Bool × σ
  fill_table_with_data : List (List String) → Int → Int → Bool → σ → Bool × σ
  get_text : σ → String × σ
  disconnect : σ → Bool × σ

/-- The recording backend: every call succeeds and is appended to the
trace. -/
def RecHwp : Hwp (List DEv) where
  create_new_document st := (true, st ++ [DEv.createNewDocument])
  open_document p st := (true, st ++ [DEv.openDocument p])
  save_document p st := (true, st ++ [DEv.saveDocument p])
  insert_text s st := (true, st ++ [DEv.insertText s])
  insert_paragraph st := (true, st ++ [DEv.insertParagraph])
  set_font_style n s bo i u se st :=
    (true, st ++ [DEv.setFontStyle n.asOptStr s.asOptInt bo.truthy i.truthy u.truthy se.truthy])
  insert_table r c st := (true, st ++ [DEv.insertTable r c])
  fill_table_with_data d r c h st := (true, st ++ [DEv.fillTable d r c h])
  get_text st := ("", st ++ [DEv.getText])
  disconnect st := (true, st ++ [DEv.disconnect])

/-! ## `HwpTableTools` (src/src/tools/hwp_table_tools.py)

The tools delegate to the controller; a connected controller instance is
assumed (the `hwp_controller is None` guard is the dispatcher's problem). -/

/-- `json.loads` applied to a dynamically-typed argument: parse errors on a
string raise `JSONDecodeError`; non-string arguments raise `TypeError`.
The JSON grammar itself is external (stdlib), modelled as an oracle. -/
def jsonLoadsDyn (jsonLoads : String → Except String Value) : Value → Except PyErr Value
  | .vstr s =>
      match jsonLoads s with
      | .ok v => .ok v
      | .error m => .error (.jsonDecodeError m)
  | v => .error (.typeError ("the JSON object must be str, bytes or bytearray, not "
      ++ v.typeNameBare))

namespace HwpTableTools

def insert_table (b : Hwp σ) (rows cols : Int) (st : σ) : String × σ :=
  let r := b.insert_table rows cols st
  if r.1 then
    ("Table inserted with " ++ toString rows ++ " rows and " ++ toString cols ++ " columns", r.2)
  else
    ("Error: Failed to insert table", r.2)

/-- `set_cell_text` calls `hwp_controller.fill_table_cell`, a method that
does not exist on `HwpController`; the resulting `AttributeError` is caught
and rendered as an error message. -/
def set_cell_text (_row _col : Int) (_text : String) (st : σ) : String × σ :=
  ("Error: \x27HwpController\x27 object has no attribute \x27fill_table_cell\x27", st)

/-- `merge_cells` calls `hwp_controller.merge_table_cells`, a method that
does not exist on `HwpController`; the `AttributeError` is caught. -/
def merge_cells (_start_row _start_col _end_row _end_col : Int) (st : σ) : String × σ :=
  ("Error: \x27HwpController\x27 object has no attribute \x27merge_table_cells\x27", st)

/-- `HwpTableTools.create_table_with_data`: creates the table first, then
parses and validates `data`, then fills.  All post-creation failures
report `표는 생성되었으나 …` ("the table was created, but…"). -/
def create_table_with_data (jsonLoads : String → Except String Value) (b : Hwp σ)
    (rows cols : Int) (data : Value) (has_header : Bool) (st : σ) : String × σ :=
  let r := b.insert_table rows cols st
  if ¬ r.1 then ("Error: Failed to create table", r.2)
  else if data.truthy then
    match jsonLoadsDyn jsonLoads data with
    | .error (.jsonDecodeError m) =>
        ("표는 생성되었으나 JSON 데이터 파싱 오류: " ++ m, r.2)
    | .error e =>
        ("표는 생성되었으나 데이터 입력 중 오류 발생: " ++ e.msg, r.2)
    | .ok v =>
        match v with
        | .vlist rows_ =>
            if rows_.isEmpty then ("표는 생성되었으나 데이터 리스트가 비어 있습니다.", r.2)
            else if ¬ rows_.all Value.isList then
              ("표는 생성되었으나 데이터가 2차원 배열 형식이 아닙니다.", r.2)
            else
              let str_data := rows_.map (fun row => match row with
                | .vlist cells => cells.map Value.pyStr
                | _ => [])
              let f := b.fill_table_with_data str_data 1 1 has_header r.2
              if f.1 then
                ("표 생성 및 데이터 입력 완료 (" ++ toString rows ++ "x" ++ toString cols ++ " 크기)", f.2)
              else
                ("표는 생성되었으나 데이터 입력에 실패했습니다.", f.2)
        | other =>
            ("표는 생성되었으나 데이터가 리스트 형식이 아닙니다. 받은 데이터 타입: "
              ++ other.typeName, r.2)
  else
    ("표 생성 완료 (" ++ toString rows ++ "x" ++ toString cols ++ " 크기)", r.2)

/-- `HwpTableTools.fill_table_with_data`: normalises rows (a non-list row
becomes a one-cell row), coerces cells to text (`None` → `""`), and
delegates to the controller. -/
def fill_table_with_data (b : Hwp σ) (data_list : List Value)
    (start_row start_col : Int) (has_header : Bool) (st : σ) : String × σ :=
  if data_list.isEmpty then ("Error: Data is required", st)
  else
    let processed := data_list.map (fun row =>
      match row with
      | .vlist cells => cells.map (fun c => match c with | .vnone => "" | _ => c.pyStr)
      | v => [v.pyStr])
    let f := b.fill_table_with_data processed start_row start_col has_header st
    if f.1 then ("표 데이터 입력 완료", f.2) else ("표 데이터 입력 실패", f.2)

end HwpTableTools

/-! ## C5: validation versus backend mutation in `create_table_with_data` -/

/-- A `json.loads` oracle that rejects every input, standing for an
argument that is not valid JSON. -/
def jsonAlwaysFails : String → Except String Value :=
  fun _ => Except.error "Expecting value: line 1 column 1 (char 0)"

/-- C5 counterexample: with an unparseable `data` string, the recorded
backend trace already contains the table creation — the mutation precedes
the parse, and the message itself says the table was created. -/
theorem create_table_mutates_before_parse :
    (HwpTableTools.create_table_with_data jsonAlwaysFails RecHwp 2 2
        (Value.vstr "not json") false []).2
      = [DEv.insertTable 2 2]
    ∧ (HwpTableTools.create_table_with_data jsonAlwaysFails RecHwp 2 2
        (Value.vstr "not json") false []).1
      = "표는 생성되었으나 JSON 데이터 파싱 오류: Expecting value: line 1 column 1 (char 0)" :=
  ⟨rfl, rfl⟩

/-- C5 amended: `create_table_with_data` creates the table before parsing
its `data` argument; when the string cannot be parsed the failure is
reported only after the backend was mutated (one table creation, no fill),
with a message stating the table was created. -/
theorem create_table_parse_failure_after_creation
    (jsonLoads : String → Except String Value) (rows cols : Int) (s : String)
    (hdr : Bool) (m : String) (hjson : jsonLoads s = Except.error m) (hs : s ≠ "") :
    (HwpTableTools.create_table_with_data jsonLoads RecHwp rows cols (Value.vstr s) hdr []).2
      = [DEv.insertTable rows cols]
    ∧ (HwpTableTools.create_table_with_data jsonLoads RecHwp rows cols (Value.vstr s) hdr []).1
      = "표는 생성되었으나 JSON 데이터 파싱 오류: " ++ m := by
  constructor <;>
    simp [HwpTableTools.create_table_with_data, RecHwp, jsonLoadsDyn, hjson, Value.truthy, hs]

/-- Witness for the amended C5. -/
theorem create_table_parse_failure_after_creation_witness :
    (jsonAlwaysFails "oops" = Except.error "Expecting value: line 1 column 1 (char 0)"
      ∧ "oops" ≠ "")
    ∧ (HwpTableTools.create_table_with_data jsonAlwaysFails RecHwp 3 4
        (Value.vstr "oops") true []).2 = [DEv.insertTable 3 4] :=
  ⟨⟨rfl, by decide⟩,
    (create_table_parse_failure_after_creation jsonAlwaysFails 3 4 "oops" true
      "Expecting value: line 1 column 1 (char 0)" rfl (by decide)).1⟩

/-! ## `hwp_fill_table_with_data` (src/hwp_mcp_stdio_server.py)

The string-parsing pipeline: `json.loads`, then the hard-coded Korean
"1 to 10 vertically" phrase, then `ast.literal_eval`, then a comma-split
fallback, then a one-cell wrap.  `json.loads` and `ast.literal_eval` are
stdlib and enter as oracles. -/

def hwp_fill_table_with_data (jsonLoads literalEval : String → Except String Value)
    (b : Hwp σ) (data : Value) (start_row start_col : Int) (has_header : Bool)
    (st : σ) : String × σ :=
  let parsed : Except String Value :=
    match data with
    | .vlist xs => .ok (.vlist xs)
    | .vstr s =>
        (match jsonLoads s with
        | .ok v => .ok v
        | .error _ =>
            if pyInStr "1부터 10까지" s ∧ pyInStr "세로" s then
              .ok (.vlist ((List.range 10).map (fun i =>
                Value.vlist [Value.vstr (toString (i + 1))])))
            else
              match literalEval s with
              | .ok v => .ok v
              | .error _ =>
                  if pyInStr "," s then
                    .ok (Value.vlist ((pySplit s ',').map (fun t =>
                      Value.vlist [Value.vstr (pyStrip t)])))
                  else
                    .ok (Value.vlist [Value.vlist [Value.vstr s]]))
    | v => .error ("Error: Unsupported data type: " ++ v.typeName)
  match parsed with
  | .error msg => (msg, st)
  | .ok pd =>
      match pd with
      | .vlist rows_ =>
          if rows_.isEmpty then ("Error: Empty data list", st)
          else
            let normalized := rows_.map (fun r =>
              match r with
              | .vlist cs => Value.vlist cs
              | v => Value.vlist [v])
            let final_data := normalized.map (fun r =>
              match r with
              | Value.vlist cs =>
                  cs.map (fun c => match c with | Value.vnone => "" | _ => c.pyStr)
              | _ => ([] : List String))
            HwpTableTools.fill_table_with_data b
              (final_data.map (fun row => Value.vlist (row.map Value.vstr)))
              start_row start_col has_header st
      | other => ("Error: Data must be a list, got " ++ other.typeName, st)

/-! ## C8: the deterministic string fallback -/

/-- C8: a string that is neither valid JSON nor a valid Python literal and
does not match the hard-coded Korean phrase parses deterministically: with
a comma, into a single-column table of the trimmed comma-separated tokens;
without one, into a one-row one-cell table holding the literal string —
and the fill then proceeds (parsing never fails outright). -/
theorem splitListOn_ne_nil (sep : Char) (l : List Char) : splitListOn sep l ≠ [] := by
  cases l with
  | nil => simp [splitListOn]
  | cons c rest =>
      simp only [splitListOn]
      split
      · simp
      · split <;> simp

theorem pySplit_ne_nil (s : String) (sep : Char) : pySplit s sep ≠ [] := by
  unfold pySplit
  simp [splitListOn_ne_nil]

theorem fill_data_string_fallback (jsonLoads literalEval : String → Except String Value)
    (s : String) (e1 e2 : String) (hjson : jsonLoads s = Except.error e1)
    (hlit : literalEval s = Except.error e2)
    (hphrase : ¬ (pyInStr "1부터 10까지" s = true ∧ pyInStr "세로" s = true)) :
    (hwp_fill_table_with_data jsonLoads literalEval RecHwp (Value.vstr s) 1 1 false []).1
      = "표 데이터 입력 완료"
    ∧ (hwp_fill_table_with_data jsonLoads literalEval RecHwp (Value.vstr s) 1 1 false []).2
      = [DEv.fillTable
          (if pyInStr "," s then (pySplit s ',').map (fun t => [pyStrip t]) else [[s]])
          1 1 false] := by
  by_cases hcomma : pyInStr "," s = true
  · constructor <;>
      simp [hwp_fill_table_with_data, HwpTableTools.fill_table_with_data, RecHwp,
        hjson, hlit, hphrase, hcomma, pySplit_ne_nil, List.map_map, Function.comp,
        Value.pyStr]
  · simp only [Bool.not_eq_true] at hcomma
    constructor <;>
      simp [hwp_fill_table_with_data, HwpTableTools.fill_table_with_data, RecHwp,
        hjson, hlit, hphrase, hcomma, Value.pyStr]

/-- An `ast.literal_eval` oracle that rejects every input. -/
def litAlwaysFails : String → Except String Value :=
  fun _ => Except.error "invalid syntax"

/-- Witness for C8: the specification's example string (with a comma) and
a plain word (without one). -/
theorem fill_data_string_fallback_witness :
    (jsonAlwaysFails "not json, not list"
        = Except.error "Expecting value: line 1 column 1 (char 0)"
      ∧ litAlwaysFails "not json, not list" = Except.error "invalid syntax"
      ∧ ¬ (pyInStr "1부터 10까지" "not json, not list" = true
            ∧ pyInStr "세로" "not json, not list" = true))
    ∧ (hwp_fill_table_with_data jsonAlwaysFails litAlwaysFails RecHwp
        (Value.vstr "not json, not list") 1 1 false []).2
      = [DEv.fillTable [["not json"], ["not list"]] 1 1 false]
    ∧ (hwp_fill_table_with_data jsonAlwaysFails litAlwaysFails RecHwp
        (Value.vstr "hello") 1 1 false []).2
      = [DEv.fillTable [["hello"]] 1 1 false] :=
  ⟨⟨rfl, rfl, by decide⟩,
    ((fill_data_string_fallback jsonAlwaysFails litAlwaysFails "not json, not list"
        "Expecting value: line 1 column 1 (char 0)" "invalid syntax" rfl rfl
        (by decide)).2).trans (by decide),
    ((fill_data_string_fallback jsonAlwaysFails litAlwaysFails "hello"
        "Expecting value: line 1 column 1 (char 0)" "invalid syntax" rfl rfl
        (by decide)).2).trans (by decide)⟩

/-! ## `HwpController.insert_text` (src/src/tools/hwp_controller.py, lines 146-175)

The multi-line branch iterates the lines, calling `insert_paragraph` and
`_insert_text_direct`, and returns `True` without inspecting either
call's boolean result.  The two inner methods wrap COM calls and return
booleans, modelled as an oracle. -/

structure InsOracle (σ : Type) where
  insert_text_direct : String → σ → Bool × σ
  insert_paragraph : σ → Bool × σ

namespace HwpController

/-- `for i, line in enumerate(lines): if i > 0: insert_paragraph();
if line.strip(): _insert_text_direct(line)` — both results discarded. -/
def insertLinesIgnoring (b : InsOracle σ) : Bool → List String → σ → σ
  | _, [], st => st
  | notFirst, line :: rest, st =>
      let st1 := if notFirst then (b.insert_paragraph st).2 else st
      let st2 := if pyStrip line ≠ "" then (b.insert_text_direct line st1).2 else st1
      insertLinesIgnoring b true rest st2

/-- `HwpController.insert_text`: the multi-line branch always returns
`True`; the single-line branch returns `_insert_text_direct`'s result. -/
def insert_text (b : InsOracle σ) (text : String) (preserve_linebreaks : Bool)
    (st : σ) : Bool × σ :=
  if preserve_linebreaks ∧ pyInStr "\n" text then
    (true, insertLinesIgnoring b false (pySplit text '\n') st)
  else
    b.insert_text_direct text st

end HwpController

/-- A backend on which every direct text insertion fails, counting the
failed attempts. -/
def failCountIns : InsOracle Nat :=
  ⟨fun _ n => (false, n + 1), fun n => (true, n)⟩

/-- C9 is right about the intent and the code contradicts it: on multi-line
text each individual line insertion fails (two failing attempts are
recorded) yet `insert_text` still returns `True` — the failures are
silently swallowed, contrary to the method's own documented boolean
contract and to the parallel server-side loop that does check each line. -/
theorem insert_text_swallows_line_failures :
    (HwpController.insert_text failCountIns "a\nb" true 0).1 = true
    ∧ (HwpController.insert_text failCountIns "a\nb" true 0).2 = 2 :=
  ⟨rfl, rfl⟩

/-! ## `CommandParser.parse` (src/src/utils/command_parser.py)

`json.loads` enters as an oracle; `JSONDecodeError` is caught first and
re-raised as `ValueError("Invalid JSON format: …")`; the validation
`ValueError`s raised inside the `try` are caught by the trailing
`except Exception` clause and re-wrapped as
`ValueError("Error parsing command: …")`. -/

namespace CommandParser

def hasKey (entries : List (String × Value)) (k : String) : Bool :=
  entries.any (fun e => e.1 = k)

def getKey (entries : List (String × Value)) (k : String) : Value :=
  match entries.find? (fun e => e.1 = k) with
  | some e => e.2
  | none => Value.vnone

def parse (jsonLoads : String → Except String Value) (command_string : String) :
    Except PyErr Value :=
  match jsonLoads command_string with
  | .error m => .error (.valueError ("Invalid JSON format: " ++ m))
  | .ok command =>
      match command with
      | Value.vdict entries =>
          if hasKey entries "type" = false then
            .error (.valueError "Error parsing command: Command must have a \x27type\x27 field")
          else if hasKey entries "params" && ! (getKey entries "params").isDict then
            .error (.valueError "Error parsing command: Command params must be a JSON object")
          else .ok (Value.vdict entries)
      | _ => .error (.valueError "Error parsing command: Command must be a JSON object")

end CommandParser

/-! ## C10 -/

/-- C10: `parse` returns the parsed command unchanged exactly when the
input parses to a JSON object that has a `type` key and whose `params`
value, when present, is itself an object; every other outcome is a
`ValueError` — no other exception kind ever escapes. -/
theorem command_parse_spec (jsonLoads : String → Except String Value) (s : String) :
    (∀ entries, jsonLoads s = Except.ok (Value.vdict entries) →
        CommandParser.hasKey entries "type" = true →
        (CommandParser.hasKey entries "params" = true →
          (CommandParser.getKey entries "params").isDict = true) →
        CommandParser.parse jsonLoads s = Except.ok (Value.vdict entries))
    ∧ (∀ v, CommandParser.parse jsonLoads s = Except.ok v →
        jsonLoads s = Except.ok v
        ∧ ∃ entries, v = Value.vdict entries
            ∧ CommandParser.hasKey entries "type" = true
            ∧ (CommandParser.hasKey entries "params" = true →
                (CommandParser.getKey entries "params").isDict = true))
    ∧ (∀ e, CommandParser.parse jsonLoads s = Except.error e →
        ∃ m, e = PyErr.valueError m) := by
  refine ⟨?_, ?_, ?_⟩
  · intro entries hj ht hp
    unfold CommandParser.parse
    rw [hj]
    cases hp1 : CommandParser.hasKey entries "params" with
    | false => simp [ht, hp1]
    | true => simp [ht, hp1, hp hp1]
  · intro v h
    unfold CommandParser.parse at h
    cases hj : jsonLoads s with
    | error m => rw [hj] at h; simp at h
    | ok c =>
        rw [hj] at h
        cases c with
        | vdict entries =>
            cases ht : CommandParser.hasKey entries "type" with
            | false => simp [ht] at h
            | true =>
                cases hp1 : CommandParser.hasKey entries "params" with
                | false =>
                    simp [ht, hp1] at h
                    exact ⟨by subst h; rfl, entries, h.symm, ht, by simp [hp1]⟩
                | true =>
                    cases hp2 : (CommandParser.getKey entries "params").isDict with
                    | false => simp [ht, hp1, hp2] at h
                    | true =>
                        simp [ht, hp1, hp2] at h
                        exact ⟨by subst h; rfl, entries, h.symm, ht, by simp [hp2]⟩
        | vnone => simp at h
        | vbool b => simp at h
        | vint n => simp at h
        | vstr t => simp at h
        | vlist xs => simp at h
  · intro e h
    unfold CommandParser.parse at h
    cases hj : jsonLoads s with
    | error m => rw [hj] at h; simp at h; exact ⟨_, h.symm⟩
    | ok c =>
        rw [hj] at h
        cases c with
        | vdict entries =>
            cases ht : CommandParser.hasKey entries "type" with
            | false => simp [ht] at h; exact ⟨_, h.symm⟩
            | true =>
                cases hp1 : CommandParser.hasKey entries "params" with
                | false => simp [ht, hp1] at h
                | true =>
                    cases hp2 : (CommandParser.getKey entries "params").isDict with
                    | false => simp [ht, hp1, hp2] at h; exact ⟨_, h.symm⟩
                    | true => simp [ht, hp1, hp2] at h
        | vnone => simp at h; exact ⟨_, h.symm⟩
        | vbool b => simp at h; exact ⟨_, h.symm⟩
        | vint n => simp at h; exact ⟨_, h.symm⟩
        | vstr t => simp at h; exact ⟨_, h.symm⟩
        | vlist xs => simp at h; exact ⟨_, h.symm⟩

/-- Witness for C10 at concrete oracles: a well-formed command is
returned unchanged, and an input that parses to a non-object yields a
`ValueError`. -/
theorem command_parse_spec_witness :
    CommandParser.parse (fun _ => Except.ok (Value.vdict [("type", Value.vstr "insert")]))
        "input"
      = Except.ok (Value.vdict [("type", Value.vstr "insert")])
    ∧ (∃ m, PyErr.valueError "Error parsing command: Command must be a JSON object"
        = PyErr.valueError m) :=
  ⟨(command_parse_spec (fun _ => Except.ok (Value.vdict [("type", Value.vstr "insert")]))
      "input").1 [("type", Value.vstr "insert")] rfl (by decide) (by decide),
    (command_parse_spec (fun _ => Except.ok (Value.vlist [])) "x").2.2
      (PyErr.valueError "Error parsing command: Command must be a JSON object") rfl⟩

/-! ## `hwp_batch_operations` (src/hwp_mcp_stdio_server.py, lines 855-1102)

Each operation is dispatched by name inside a per-operation `try/except`;
a raised exception becomes that entry's error result and the loop
continues.  The outer result is `{"status": "success", "results": …}`
whenever a backend handle was obtained. -/

structure Operation where
  operation : String
  params : List (String × Value)
deriving Repr

structure OpResult where
  operation : String
  status : String
  message : String
  text : Option String := none
  path : Option String := none
  saved_path : Option String := none
deriving DecidableEq, Repr

/-- The mutable part of the per-operation result dict: Python initialises
`{"operation": op, "status": "success", "message": ""}` and the branches
only update status/message/extras. -/
structure OpOutcome where
  status : String := "success"
  message : String := ""
  text : Option String := none
  path : Option String := none
  saved_path : Option String := none
deriving DecidableEq, Repr

def okOut (status msg : String) : OpOutcome := ⟨status, msg, none, none, none⟩

/-- `params.get(key, default)`. -/
def pget (params : List (String × Value)) (k : String) (d : Value) : Value :=
  match params.find? (fun e => e.1 = k) with
  | some e => e.2
  | none => d

/-- Replay a recorded call sequence against a backend handle, discarding
the boolean results (as the formatting code does). -/
def runDEvs (b : Hwp σ) : List DEv → σ → σ
  | [], st => st
  | ev :: rest, st =>
      let st2 := match ev with
        | DEv.createNewDocument => (b.create_new_document st).2
        | DEv.openDocument p => (b.open_document p st).2
        | DEv.saveDocument p => (b.save_document p st).2
        | DEv.insertText s => (b.insert_text s st).2
        | DEv.insertParagraph => (b.insert_paragraph st).2
        | DEv.setFontStyle n sz bo i u se =>
            (b.set_font_style (match n with | some x => Value.vstr x | none => Value.vnone)
              (match sz with | some x => Value.vint x | none => Value.vnone)
              (Value.vbool bo) (Value.vbool i) (Value.vbool u) (Value.vbool se) st).2
        | DEv.insertTable r c => (b.insert_table r c st).2
        | DEv.fillTable d r c h => (b.fill_table_with_data d r c h st).2
        | DEv.getText => (b.get_text st).2
        | DEv.disconnect => (b.disconnect st).2
      runDEvs b rest st2

/-- `hwp_create_document_from_text` threaded through a backend handle:
identical to the pure-trace embedding, but the create/save outcomes come
from the oracle. -/
def hwp_create_document_from_text_b (b : Hwp σ) (content : String)
    (title : Option String) (format_content : Bool) (save_filename : Option String)
    (preserve_linebreaks : Bool) (st : σ) : DocResult × σ :=
  let c := b.create_new_document st
  if ¬ c.1 then (⟨"error", "Failed to create new document", none⟩, c.2)
  else if content = "" then (⟨"error", "Document content is required", none⟩, c.2)
  else
    let lines := pySplit content '\n'
    let blocks := mkBlocks lines
    let tb := extractTitle title blocks
    let st2 := runDEvs b
      (titleEvents tb.1 ++ bodyEvents format_content preserve_linebreaks lines tb.2) c.2
    match save_filename with
    | some f =>
        if f = "" then (⟨"success", "Document created from text successfully", none⟩, st2)
        else
          let sv := b.save_document (some f) st2
          if sv.1 then (⟨"success", "Document created from text successfully", some f⟩, sv.2)
          else (⟨"partial_success", "Document created but failed to save", none⟩, sv.2)
    | none => (⟨"success", "Document created from text successfully", none⟩, st2)

def tempPath : String := "temp_document.hwp"

/-- The no-path save branch: `os.path.join(os.getcwd(), "temp_document.hwp")`
(the cwd prefix is environment state, modelled as the bare name). -/
def tempSave (b : Hwp σ) (st : σ) : Except PyErr OpOutcome × σ :=
  let r := b.save_document (some tempPath) st
  if r.1 then
    (.ok ⟨"success", "Document saved to: " ++ tempPath, none, some tempPath, none⟩, r.2)
  else (.ok (okOut "error" "Failed to save document"), r.2)

/-- The multi-line insert loop of the dispatcher (unlike the controller's,
it checks every line's result and stops at the first failure; the
paragraph-break results are ignored). -/
def insertLinesChecked (b : Hwp σ) : List String → σ → Bool × σ
  | [], st => (true, st)
  | [line], st => b.insert_text line st
  | line :: next :: rest, st =>
      let r := b.insert_text line st
      if ¬ r.1 then (false, r.2)
      else
        let p := b.insert_paragraph r.2
        insertLinesChecked b (next :: rest) p.2

/-- `for _ in range(count): if not hwp.insert_paragraph(): break`. -/
def paraLoop (b : Hwp σ) : Nat → σ → Bool × σ
  | 0, st => (true, st)
  | k + 1, st =>
      let r := b.insert_paragraph st
      if ¬ r.1 then (false, r.2) else paraLoop b k r.2

/-- The per-operation body of the dispatcher's `try`: either a result-dict
update or a raised Python exception. -/
def execOp (jsonLoads : String → Except String Value) (b : Hwp σ) (op : Operation)
    (st : σ) : Except PyErr OpOutcome × σ :=
  let operation := op.operation
  let params := op.params
  if operation = "create" then
    let r := b.create_new_document st
    if r.1 then (.ok (okOut "success" "New document created successfully"), r.2)
    else (.ok (okOut "error" "Failed to create new document"), r.2)
  else if operation = "open" then
    let path := pget params "path" (Value.vstr "")
    if ¬ path.truthy then (.ok (okOut "error" "File path is required"), st)
    else
      match path with
      | Value.vstr p =>
          let r := b.open_document p st
          if r.1 then (.ok (okOut "success" ("Document opened: " ++ p)), r.2)
          else (.ok (okOut "error" "Failed to open document"), r.2)
      | _ =>
          -- truthy non-string path: `os.path.abspath` fails inside the
          -- controller's try, which returns False without a backend call
          (.ok (okOut "error" "Failed to open document"), st)
  else if operation = "save" then
    let path := pget params "path" Value.vnone
    match path with
    | Value.vstr p =>
        if p ≠ "" then
          let r := b.save_document (some p) st
          if r.1 then (.ok (okOut "success" ("Document saved to: " ++ p)), r.2)
          else (.ok (okOut "error" "Failed to save document"), r.2)
        else tempSave b st
    | Value.vnone => tempSave b st
    | v =>
        if v.truthy then
          -- truthy non-string path: the controller's save fails internally
          (.ok (okOut "error" "Failed to save document"), st)
        else tempSave b st
  else if operation = "insert_text" then
    let text := pget params "text" (Value.vstr "")
    let preserve := pget params "preserve_linebreaks" (Value.vbool true)
    if ¬ text.truthy then (.ok (okOut "error" "Text is required"), st)
    else
      let multiline : Except PyErr Bool :=
        if preserve.truthy then
          match pyContains "\n" text with
          | .error e => .error e
          | .ok b1 => if b1 then .ok true else pyContains "\\n" text
        else .ok false
      match multiline with
      | .error e => (.error e, st)
      | .ok true =>
          match text with
          | Value.vstr ts =>
              let lines := pySplit (pyReplaceEscNL ts) '\n'
              let r := insertLinesChecked b lines st
              if r.1 then
                (.ok (okOut "success" "Text with line breaks inserted successfully"), r.2)
              else (.ok (okOut "error" "Failed to insert text with line breaks"), r.2)
          | v =>
              -- a container holding "\n": `text.replace` raises AttributeError
              (.error (.attributeError ("\x27" ++ v.typeNameBare
                ++ "\x27 object has no attribute \x27replace\x27")), st)
      | .ok false =>
          match text with
          | Value.vstr ts =>
              let r := b.insert_text ts st
              if r.1 then (.ok (okOut "success" "Text inserted successfully"), r.2)
              else (.ok (okOut "error" "Failed to insert text"), r.2)
          | _ =>
              -- non-string text: the controller's insert_text fails internally
              (.ok (okOut "error" "Failed to insert text"), st)
  else if operation = "set_font" then
    let r := b.set_font_style (pget params "name" Value.vnone) (pget params "size" Value.vnone)
      (pget params "bold" (Value.vbool false)) (pget params "italic" (Value.vbool false))
      (pget params "underline" (Value.vbool false))
      (pget params "select_previous_text" (Value.vbool false)) st
    if r.1 then (.ok (okOut "success" "Font set successfully"), r.2)
    else (.ok (okOut "error" "Failed to set font"), r.2)
  else if operation = "insert_paragraph" then
    let count := pget params "count" (Value.vint 1)
    match pyRangeCount count with
    | .error e => (.error e, st)
    | .ok n =>
        let r := paraLoop b n st
        if r.1 then
          (.ok (okOut "success" (count.pyStr ++ " paragraph(s) inserted successfully")), r.2)
        else (.ok (okOut "error" "Failed to insert paragraph"), r.2)
  else if operation = "insert_table" then
    let rows := pget params "rows" (Value.vint 0)
    let cols := pget params "cols" (Value.vint 0)
    let data := pget params "data" (Value.vlist [])
    let has_header := pget params "has_header" (Value.vbool false)
    match pyLE rows (Value.vint 0) with
    | .error e => (.error e, st)
    | .ok rle =>
        if rle then (.ok (okOut "error" "Valid rows and cols are required"), st)
        else
          match pyLE cols (Value.vint 0) with
          | .error e => (.error e, st)
          | .ok cle =>
              if cle then (.ok (okOut "error" "Valid rows and cols are required"), st)
              else if data.truthy then
                let dataArg := match data with
                  | Value.vlist xs => Value.vstr (jsonDumps (Value.vlist xs))
                  | v => v
                let r := HwpTableTools.create_table_with_data jsonLoads b rows.asInt
                  cols.asInt dataArg has_header.truthy st
                (.ok (okOut (if pyStartsWith r.1 "Error" then "error" else "success") r.1), r.2)
              else
                let r := HwpTableTools.insert_table b rows.asInt cols.asInt st
                (.ok (okOut (if pyStartsWith r.1 "Error" then "error" else "success") r.1), r.2)
  else if operation = "set_table_cell_text" then
    let row := pget params "row" (Value.vint 0)
    let col := pget params "col" (Value.vint 0)
    let text := pget params "text" (Value.vstr "")
    match pyLE row (Value.vint 0) with
    | .error e => (.error e, st)
    | .ok rle =>
        if rle then (.ok (okOut "error" "Valid row and col are required"), st)
        else
          match pyLE col (Value.vint 0) with
          | .error e => (.error e, st)
          | .ok cle =>
              if cle then (.ok (okOut "error" "Valid row and col are required"), st)
              else
                let r := HwpTableTools.set_cell_text row.asInt col.asInt text.pyStr st
                (.ok (okOut (if pyStartsWith r.1 "Error" then "error" else "success") r.1), r.2)
  else if operation = "merge_table_cells" then
    let sr := pget params "start_row" (Value.vint 0)
    let sc := pget params "start_col" (Value.vint 0)
    let er := pget params "end_row" (Value.vint 0)
    let ec := pget params "end_col" (Value.vint 0)
    match pyLE sr (Value.vint 0) with
    | .error e => (.error e, st)
    | .ok b1 =>
        if b1 then (.ok (okOut "error" "Valid cell coordinates are required"), st)
        else match pyLE sc (Value.vint 0) with
          | .error e => (.error e, st)
          | .ok b2 =>
              if b2 then (.ok (okOut "error" "Valid cell coordinates are required"), st)
              else match pyLE er (Value.vint 0) with
                | .error e => (.error e, st)
                | .ok b3 =>
                    if b3 then (.ok (okOut "error" "Valid cell coordinates are required"), st)
                    else match pyLE ec (Value.vint 0) with
                      | .error e => (.error e, st)
                      | .ok b4 =>
                          if b4 then
                            (.ok (okOut "error" "Valid cell coordinates are required"), st)
                          else
                            let r := HwpTableTools.merge_cells sr.asInt sc.asInt er.asInt
                              ec.asInt st
                            (.ok (okOut (if pyStartsWith r.1 "Error" then "error" else "success")
                              r.1), r.2)
  else if operation = "get_text" then
    let r := b.get_text st
    (.ok ⟨"success", "Text retrieved successfully", some r.1, none, none⟩, r.2)
  else if operation = "close" then
    let r := b.disconnect st
    if r.1 then (.ok (okOut "success" "Document closed successfully"), r.2)
    else (.ok (okOut "error" "Failed to close document"), r.2)
  else if operation = "create_document_from_text" then
    let content := pget params "content" (Value.vstr "")
    let title := pget params "title" Value.vnone
    let format_content := pget params "format_content" (Value.vbool true)
    let save_filename := pget params "save_filename" Value.vnone
    let preserve := pget params "preserve_linebreaks" (Value.vbool true)
    if ¬ content.truthy then (.ok (okOut "error" "Document content is required"), st)
    else
      match content with
      | Value.vstr cs =>
          let r := hwp_create_document_from_text_b b cs title.asOptStr
            format_content.truthy save_filename.asOptStr preserve.truthy st
          (.ok ⟨r.1.status, r.1.message, none, none, r.1.saved_path⟩, r.2)
      | v =>
          -- non-string content: the tool creates a document, then fails at
          -- content.split and returns its caught-exception error dict
          let r := b.create_new_document st
          if r.1 then
            (.ok (okOut "error" ("Error: \x27" ++ v.typeNameBare
              ++ "\x27 object has no attribute \x27split\x27")), r.2)
          else (.ok (okOut "error" "Failed to create new document"), r.2)
  else (.ok (okOut "error" ("Unknown operation: " ++ operation)), st)

/-- The `except` wrapper around each operation, restoring the initialised
result dict on a raised exception. -/
def runOp (jsonLoads : String → Except String Value) (b : Hwp σ) (op : Operation)
    (st : σ) : OpResult × σ :=
  match execOp jsonLoads b op st with
  | (.ok oc, st2) =>
      (⟨op.operation, oc.status, oc.message, oc.text, oc.path, oc.saved_path⟩, st2)
  | (.error e, st2) =>
      (⟨op.operation, "error",
        "Error in operation \x27" ++ op.operation ++ "\x27: " ++ e.msg,
        none, none, none⟩, st2)

def runBatch (jsonLoads : String → Except String Value) (b : Hwp σ) :
    List Operation → σ → List OpResult × σ
  | [], st => ([], st)
  | op :: rest, st =>
      let r := runOp jsonLoads b op st
      let rs := runBatch jsonLoads b rest r.2
      (r.1 :: rs.1, rs.2)

structure BatchResult where
  status : String
  message : Option String := none
  results : List OpResult := []
deriving DecidableEq, Repr

/-- `hwp_batch_operations`: `connected = false` stands for
`get_hwp_controller()` returning `None`. -/
def hwp_batch_operations (jsonLoads : String → Except String Value) (b : Hwp σ)
    (connected : Bool) (ops : List Operation) (st : σ) : BatchResult :=
  if ¬ connected then ⟨"error", some "Failed to connect to HWP program", []⟩
  else ⟨"success", none, (runBatch jsonLoads b ops st).1⟩

def knownOps : List String :=
  ["create", "open", "save", "insert_text", "set_font", "insert_paragraph",
   "insert_table", "set_table_cell_text", "merge_table_cells", "get_text",
   "close", "create_document_from_text"]

/-! ## C3 proofs -/

theorem runOp_operation (jsonLoads : String → Except String Value) (b : Hwp σ)
    (op : Operation) (st : σ) :
    (runOp jsonLoads b op st).1.operation = op.operation := by
  rcases hx : execOp jsonLoads b op st with ⟨r, st2⟩
  cases r <;> simp [runOp, hx]

theorem runBatch_length (jsonLoads : String → Except String Value) (b : Hwp σ) :
    ∀ (ops : List Operation) (st : σ),
      (runBatch jsonLoads b ops st).1.length = ops.length := by
  intro ops
  induction ops with
  | nil => intro st; rfl
  | cons op rest ih => intro st; simp [runBatch, ih]

theorem runBatch_get_operation (jsonLoads : String → Except String Value) (b : Hwp σ) :
    ∀ (ops : List Operation) (st : σ) (i : Nat)
      (h1 : i < (runBatch jsonLoads b ops st).1.length) (h2 : i < ops.length),
      ((runBatch jsonLoads b ops st).1.get ⟨i, h1⟩).operation
        = (ops.get ⟨i, h2⟩).operation := by
  intro ops
  induction ops with
  | nil => intro st i h1 h2; simp at h2
  | cons op rest ih =>
    intro st i h1 h2
    cases i with
    | zero => simpa [runBatch] using runOp_operation jsonLoads b op st
    | succ n =>
      have h1b : n < (runBatch jsonLoads b rest (runOp jsonLoads b op st).2).1.length := by
        simp only [runBatch] at h1
        simpa using Nat.lt_of_succ_lt_succ h1
      have h2b : n < rest.length := Nat.lt_of_succ_lt_succ (by simpa using h2)
      simpa [runBatch] using ih (runOp jsonLoads b op st).2 n h1b h2b

theorem execOp_unknown (jsonLoads : String → Except String Value) (b : Hwp σ)
    (op : Operation) (st : σ) (h : op.operation ∉ knownOps) :
    execOp jsonLoads b op st
      = (Except.ok (okOut "error" ("Unknown operation: " ++ op.operation)), st) := by
  have h1 : ¬ op.operation = "create" := fun hh => h (by simp [knownOps, hh])
  have h2 : ¬ op.operation = "open" := fun hh => h (by simp [knownOps, hh])
  have h3 : ¬ op.operation = "save" := fun hh => h (by simp [knownOps, hh])
  have h4 : ¬ op.operation = "insert_text" := fun hh => h (by simp [knownOps, hh])
  have h5 : ¬ op.operation = "set_font" := fun hh => h (by simp [knownOps, hh])
  have h6 : ¬ op.operation = "insert_paragraph" := fun hh => h (by simp [knownOps, hh])
  have h7 : ¬ op.operation = "insert_table" := fun hh => h (by simp [knownOps, hh])
  have h8 : ¬ op.operation = "set_table_cell_text" := fun hh => h (by simp [knownOps, hh])
  have h9 : ¬ op.operation = "merge_table_cells" := fun hh => h (by simp [knownOps, hh])
  have h10 : ¬ op.operation = "get_text" := fun hh => h (by simp [knownOps, hh])
  have h11 : ¬ op.operation = "close" := fun hh => h (by simp [knownOps, hh])
  have h12 : ¬ op.operation = "create_document_from_text" := fun hh => h (by simp [knownOps, hh])
  simp [execOp, h1, h2, h3, h4, h5, h6, h7, h8, h9, h10, h11, h12]

/-- C3: on a connected backend the dispatcher returns one result per input
operation in input order; an unknown operation name or a raised handler
exception turns only that entry into an error result without stopping the
remaining operations; and the top-level batch status is `success`
regardless of per-operation failures. -/
theorem batch_isolation (σ : Type) (jsonLoads : String → Except String Value)
    (b : Hwp σ) (st : σ) (ops : List Operation) :
    (hwp_batch_operations jsonLoads b true ops st).status = "success"
    ∧ (hwp_batch_operations jsonLoads b true ops st).results.length = ops.length
    ∧ (∀ (i : Nat) (h1 : i < (hwp_batch_operations jsonLoads b true ops st).results.length)
        (h2 : i < ops.length),
        ((hwp_batch_operations jsonLoads b true ops st).results.get ⟨i, h1⟩).operation
          = (ops.get ⟨i, h2⟩).operation)
    ∧ (∀ (op : Operation) (rest : List Operation) (st0 : σ),
        (runBatch jsonLoads b (op :: rest) st0).1
          = (runOp jsonLoads b op st0).1
            :: (runBatch jsonLoads b rest (runOp jsonLoads b op st0).2).1)
    ∧ (∀ (op : Operation) (st0 : σ), op.operation ∉ knownOps →
        (runOp jsonLoads b op st0).1.status = "error"
        ∧ (runOp jsonLoads b op st0).1.message = "Unknown operation: " ++ op.operation)
    ∧ (∀ (op : Operation) (st0 : σ) (e : PyErr) (st1 : σ),
        execOp jsonLoads b op st0 = (Except.error e, st1) →
        (runOp jsonLoads b op st0).1.status = "error") := by
  refine ⟨rfl, ?_, ?_, ?_, ?_, ?_⟩
  · simpa [hwp_batch_operations] using runBatch_length jsonLoads b ops st
  · intro i h1 h2
    simp only [hwp_batch_operations] at h1 ⊢
    exact runBatch_get_operation jsonLoads b ops st i (by simpa using h1) h2
  · intro op rest st0
    simp [runBatch]
  · intro op st0 h
    constructor <;> simp [runOp, execOp_unknown jsonLoads b op st0 h, okOut]
  · intro op st0 e st1 h
    simp [runOp, h]

/-- A trivial connected backend on which every call succeeds. -/
def unitHwp : Hwp Unit where
  create_new_document _ := (true, ())
  open_document _ _ := (true, ())
  save_document _ _ := (true, ())
  insert_text _ _ := (true, ())
  insert_paragraph _ := (true, ())
  set_font_style _ _ _ _ _ _ _ := (true, ())
  insert_table _ _ _ := (true, ())
  fill_table_with_data _ _ _ _ _ := (true, ())
  get_text _ := ("", ())
  disconnect _ := (true, ())

/-- The specification's batch example. -/
def exOps : List Operation :=
  [⟨"insert_text", [("text", Value.vstr "ok")]⟩,
   ⟨"unknown_op", []⟩,
   ⟨"insert_text", [("text", Value.vstr "ok2")]⟩]

/-- Witness for C3: the example batch yields success/error/success with
top-level success, and a handler that raises (a string `rows` compared
against an int) yields an error entry. -/
theorem batch_isolation_witness :
    (hwp_batch_operations jsonAlwaysFails unitHwp true exOps ()).status = "success"
    ∧ (hwp_batch_operations jsonAlwaysFails unitHwp true exOps ()).results.map OpResult.status
        = ["success", "error", "success"]
    ∧ (hwp_batch_operations jsonAlwaysFails unitHwp true exOps ()).results.map OpResult.message
        = ["Text inserted successfully", "Unknown operation: unknown_op",
           "Text inserted successfully"]
    ∧ (runOp jsonAlwaysFails unitHwp ⟨"insert_table", [("rows", Value.vstr "x")]⟩ ()).1.status
        = "error" :=
  ⟨(batch_isolation Unit jsonAlwaysFails unitHwp () exOps).1,
   by decide,
   by decide,
   (batch_isolation Unit jsonAlwaysFails unitHwp () exOps).2.2.2.2.2
     ⟨"insert_table", [("rows", Value.vstr "x")]⟩ ()
     (PyErr.typeError
       "\x27<=\x27 not supported between instances of \x27str\x27 and \x27int\x27")
     () rfl⟩
